import Mathlib

/-!
Verification development for the tcp-uart-bridge repository.

The repository is a pair of Node.js processes bridging TCP sessions over a
serial (UART) link: an ingress side (tcp-server) accepting client TCP
connections, and an egress side (tcp-client) dialling the indicated targets.
Both sides share a 27-byte-header binary frame codec (createPacket), a
buffer-based framer (PacketStream._transform), per-side packet handlers
(handleResponsePacket on ingress, handlePacket on egress), and a
gracefulShutdown sequence.

The shallow embedding below mirrors that source: JS Buffers become List Nat
(bytes as naturals, validity stated as < 256 where it matters), JS strings
become List Char, JS Maps become association lists, and the asynchronous
callback structure of the two session managers becomes an explicit event-step
machine (the environment chooses when an in-flight dial succeeds or fails and
when a socket close handler fires).
-/

namespace Bridge

/-- Command byte for data frames (CMD_DATA in the source). -/
def CMD_DATA : Nat := 1

/-- Command byte for disconnect frames (CMD_DISCONNECT in the source). -/
def CMD_DISCONNECT : Nat := 3

/-- Command byte for program close frames (CMD_PROGRAM_CLOSE in the source). -/
def CMD_PROGRAM_CLOSE : Nat := 5

/-- Buffer.readUInt8-style read with JS Buffer out-of-range reads modelled as 0;
every use in the framer is guarded by a length check, so the default is never hit
on the guarded paths. -/
def byteAt (l : List Nat) (i : Nat) : Nat := l.getD i 0

/-- Buffer.readUInt16BE at offset i. -/
def readUInt16BE (l : List Nat) (i : Nat) : Nat :=
  byteAt l i * 256 + byteAt l (i + 1)

/-- Buffer.readUInt32BE at offset i. -/
def readUInt32BE (l : List Nat) (i : Nat) : Nat :=
  ((byteAt l i * 256 + byteAt l (i + 1)) * 256 + byteAt l (i + 2)) * 256 + byteAt l (i + 3)

/-- The two bytes written by Buffer.writeUInt16BE v (the source only calls it with
a u16 value; the mod keeps the model total). -/
def writeUInt16BE (v : Nat) : List Nat := [v / 256 % 256, v % 256]

/-- The four bytes written by Buffer.writeUInt32BE v. -/
def writeUInt32BE (v : Nat) : List Nat :=
  [v / 16777216 % 256, v / 65536 % 256, v / 256 % 256, v % 256]

/-- Buffer.prototype.copy semantics: overwrite buf starting at offset off with src,
clipped at the end of buf; bytes of buf outside the written range are kept. -/
def writeBytesAt (buf : List Nat) (off : Nat) (src : List Nat) : List Nat :=
  buf.take off ++ src.take (buf.length - off) ++ buf.drop (off + src.length)

/-- Lowercase hex digit character for a value below 16 (as produced by
Buffer.toString with hex encoding). -/
def hexDigitChar (n : Nat) : Char :=
  if n < 10 then Char.ofNat (48 + n) else Char.ofNat (87 + n)

/-- Value of a hex digit character, none when the character is not a hex digit. -/
def hexCharVal (c : Char) : Option Nat :=
  if 48 ≤ c.toNat ∧ c.toNat ≤ 57 then some (c.toNat - 48)
  else if 97 ≤ c.toNat ∧ c.toNat ≤ 102 then some (c.toNat - 87)
  else if 65 ≤ c.toNat ∧ c.toNat ≤ 70 then some (c.toNat - 55)
  else none

/-- Buffer.toString with hex encoding: two lowercase hex digits per byte. -/
def hexEncode : List Nat → List Char
  | [] => []
  | b :: bs => hexDigitChar (b / 16 % 16) :: hexDigitChar (b % 16) :: hexEncode bs

/-- Buffer.from(s, hex): decode pairs of hex digits, stopping at the first
invalid pair; a trailing odd character is dropped. -/
def hexDecode : List Char → List Nat
  | c1 :: c2 :: rest =>
    match hexCharVal c1, hexCharVal c2 with
    | some h, some l => (h * 16 + l) :: hexDecode rest
    | _, _ => []
  | _ => []

/-- Decimal digit value of a character, none for a non-digit. -/
def digitVal (c : Char) : Option Nat :=
  if 48 ≤ c.toNat ∧ c.toNat ≤ 57 then some (c.toNat - 48) else none

/-- The whitespace characters parseInt skips at the front of its argument. -/
def isJsWs (c : Char) : Bool :=
  c == ' ' || c == '\t' || c == '\n' || c == '\r' || c == '\x0b' || c == '\x0c'

/-- Leading-whitespace removal, the first step of parseInt. -/
def skipWs : List Char → List Char
  | [] => []
  | c :: cs => if isJsWs c then skipWs cs else c :: cs

/-- Value of the maximal leading run of digits in radix r, using val to read a
single digit; none when the run is empty (parseInt's NaN case). -/
def digitRun (val : Char → Option Nat) (r acc : Nat) (seen : Bool) :
    List Char → Option Nat
  | [] => if seen then some acc else none
  | c :: cs =>
    match val c with
    | some d => digitRun val r (acc * r + d) true cs
    | none => if seen then some acc else none

/-- JS parseInt(s) with no radix argument: skip leading whitespace, read an
optional sign, switch to hex on a 0x or 0X prefix, then take the value of the
maximal run of digits of that radix; none models NaN (no digit at all). -/
def parseIntJS (s : List Char) : Option Int :=
  let s1 := skipWs s
  let sign : Int :=
    match s1 with
    | '-' :: _ => -1
    | _ => 1
  let s2 :=
    match s1 with
    | '-' :: cs => cs
    | '+' :: cs => cs
    | _ => s1
  match s2 with
  | '0' :: 'x' :: cs => (digitRun hexCharVal 16 0 false cs).map (fun v => sign * v)
  | '0' :: 'X' :: cs => (digitRun hexCharVal 16 0 false cs).map (fun v => sign * v)
  | _ => (digitRun digitVal 10 0 false s2).map (fun v => sign * v)

/-- parseInt(part) || 0 as the ipBuffer construction uses it: NaN (and the
unreachable -0) fall back to 0. -/
def parseIntOr0 (s : List Char) : Int := (parseIntJS s).getD 0

/-- String.prototype.split on the dot character. -/
def splitDots : List Char → List (List Char)
  | [] => [[]]
  | c :: cs =>
    match splitDots cs with
    | [] => [[]]
    | p :: ps => if c = '.' then [] :: p :: ps else (c :: p) :: ps

/-- Array.prototype.join with a dot separator. -/
def joinDots : List (List Char) → List Char
  | [] => []
  | [p] => p
  | p :: ps => p ++ '.' :: joinDots ps

/-- Decimal digit character. -/
def digitChar (n : Nat) : Char := Char.ofNat (48 + n)

/-- Fuelled decimal rendering of a natural number (Number.prototype.toString as
used by Array.join on the four ip bytes). -/
def natReprAux (fuel n : Nat) : List Char :=
  match fuel with
  | 0 => []
  | fuel + 1 =>
    if n < 10 then [digitChar n]
    else natReprAux fuel (n / 10) ++ [digitChar (n % 10)]

/-- Decimal rendering of a natural number; the fuel n + 1 always suffices. -/
def natRepr (n : Nat) : List Char := natReprAux (n + 1) n

/-- The clientIdBuffer construction in createPacket: a 32-character string is
hex-decoded; a hyphenated string is hex-decoded after removing the hyphens;
otherwise a fresh random UUID is used. The fresh argument stands for the 16
bytes of crypto.randomUUID() with hyphens removed, supplied by the environment. -/
def clientIdBuffer (clientId : List Char) (fresh : List Nat) : List Nat :=
  if clientId.length = 32 then hexDecode clientId
  else if ('-' : Char) ∈ clientId then hexDecode (clientId.filter (fun c => c ≠ '-'))
  else fresh

/-- The ipBuffer construction in createPacket: 4 zero bytes for an empty host,
otherwise split the host on dots, parseInt each part with || 0, keep at most the
first four values, with Buffer.from truncating each value mod 256. The result
may be shorter than 4 bytes (the copy into the zero-filled packet then leaves
the missing trailing octets as zero). -/
def ipBuffer (targetHost : List Char) : List Nat :=
  if targetHost = [] then [0, 0, 0, 0]
  else (((splitDots targetHost).map parseIntOr0).take 4).map (fun v => (v % 256).toNat)

/-- createPacket from the source: a zero-filled buffer of size 27 + data length,
with cmd(1) clientId(16) ip(4) port(2) dataLen(4) data written into it in order
at their offsets. The data argument is already a byte buffer (callers pass
either a Buffer or the empty string, which Buffer.from turns into no bytes). -/
def createPacket (cmd : Nat) (clientId : List Char) (data : List Nat)
    (targetHost : List Char) (targetPort : Nat) (fresh : List Nat) : List Nat :=
  let cib := clientIdBuffer clientId fresh
  let ipb := ipBuffer targetHost
  let packet0 := List.replicate (1 + 16 + 4 + 2 + 4 + data.length) 0
  let p1 := writeBytesAt packet0 0 [cmd % 256]
  let p2 := writeBytesAt p1 1 cib
  let p3 := writeBytesAt p2 17 ipb
  let p4 := writeBytesAt p3 21 (writeUInt16BE targetPort)
  let p5 := writeBytesAt p4 23 (writeUInt32BE data.length)
  writeBytesAt p5 27 data

/-- The record PacketStream emits on its packet event: cmd, the clientId bytes
rendered as a hex string, the four ip bytes joined as dotted decimal, the port,
and the payload bytes. -/
structure EmittedPacket where
  cmd : Nat
  clientId : List Char
  targetHost : List Char
  targetPort : Nat
  data : List Nat
deriving Repr, DecidableEq

/-- The packet built from the first complete frame at the head of the buffer
(the field extraction inside PacketStream._transform's loop body). -/
def headerPacket (buffer : List Nat) : EmittedPacket :=
  { cmd := byteAt buffer 0
    clientId := hexEncode ((buffer.drop 1).take 16)
    targetHost := joinDots (((buffer.drop 17).take 4).map natRepr)
    targetPort := readUInt16BE buffer 21
    data := (buffer.drop 27).take (readUInt32BE buffer 23) }

/-- Fuelled form of PacketStream._transform's while loop: extract complete
frames from the front of the buffer in order, returning the emitted packets
and the retained buffer. Each iteration consumes at least 27 bytes, so fuel
equal to the buffer length always suffices. -/
def extractLoopAux (fuel : Nat) (buffer : List Nat) : List EmittedPacket × List Nat :=
  match fuel with
  | 0 => ([], buffer)
  | fuel + 1 =>
    if 27 ≤ buffer.length then
      if 27 + readUInt32BE buffer 23 ≤ buffer.length then
        let rest := buffer.drop (27 + readUInt32BE buffer 23)
        (headerPacket buffer :: (extractLoopAux fuel rest).1, (extractLoopAux fuel rest).2)
      else ([], buffer)
    else ([], buffer)

/-- PacketStream._transform's while loop on a buffer. -/
def extractLoop (buffer : List Nat) : List EmittedPacket × List Nat :=
  extractLoopAux buffer.length buffer

/-- One _transform call: append the chunk to the retained buffer, then run the
extraction loop. -/
def framerStep (st : List Nat) (chunk : List Nat) : List EmittedPacket × List Nat :=
  extractLoop (st ++ chunk)

/-- Feeding a sequence of chunks to a PacketStream whose retained buffer starts
as st: the packets emitted across all calls, in order, and the final buffer. -/
def framerRun (st : List Nat) : List (List Nat) → List EmittedPacket × List Nat
  | [] => ([], st)
  | c :: cs =>
    let out := framerStep st c
    let outs := framerRun out.2 cs
    (out.1 ++ outs.1, outs.2)

end Bridge

namespace Bridge

/-- Well-formedness of a caller-side frame: a byte command, a 16-byte session
id, a 4-octet IPv4 target, a u16 port, and payload bytes with a length that
fits the u32 length field. -/
structure Frame where
  cmd : Nat
  sessionId : List Nat
  targetIp : List Nat
  targetPort : Nat
  data : List Nat
deriving Repr, DecidableEq

def Frame.wf (f : Frame) : Prop :=
  f.cmd < 256 ∧ f.sessionId.length = 16 ∧ (∀ b ∈ f.sessionId, b < 256) ∧
  f.targetIp.length = 4 ∧ (∀ b ∈ f.targetIp, b < 256) ∧
  f.targetPort < 65536 ∧ f.data.length < 4294967296 ∧ (∀ b ∈ f.data, b < 256)

instance (f : Frame) : Decidable f.wf := by
  unfold Frame.wf
  infer_instance

/-- The dotted-decimal string form of the frame target, as the ingress stores
it in its mapping table and passes it to createPacket. -/
def Frame.hostStr (f : Frame) : List Char := joinDots (f.targetIp.map natRepr)

/-- Encoding a frame with createPacket, the way the ingress data pump calls it:
the session id as a 32-character hex string and the target as a dotted-decimal
string. The fresh argument is irrelevant (the id string has length 32). -/
def Frame.encode (f : Frame) : List Nat :=
  createPacket f.cmd (hexEncode f.sessionId) f.data f.hostStr f.targetPort []

/-- The packet the framer is expected to emit for a frame: same cmd, the hex
form of the same session id, the dotted form of the same target ip, the same
port and the same payload. -/
def Frame.emitted (f : Frame) : EmittedPacket :=
  { cmd := f.cmd, clientId := hexEncode f.sessionId, targetHost := f.hostStr,
    targetPort := f.targetPort, data := f.data }

/-- A buffer from which the framer can extract no frame: shorter than the
27-byte header, or shorter than the full frame its header announces. Exactly
the state in which PacketStream._transform's loop stops. -/
def isIncomplete (b : List Nat) : Prop :=
  b.length < 27 ∨ b.length < 27 + readUInt32BE b 23

instance (b : List Nat) : Decidable (isIncomplete b) := by
  unfold isIncomplete
  infer_instance

/-- JS Map.get on a string-keyed map modelled as an association list. -/
def mapGet {α : Type} (m : List (List Char × α)) (k : List Char) : Option α :=
  (m.find? (fun e => e.1 == k)).map (fun e => e.2)

/-- JS Map.set: update in place when the key exists, append otherwise. -/
def mapSet {α : Type} (m : List (List Char × α)) (k : List Char) (v : α) :
    List (List Char × α) :=
  if (m.find? (fun e => e.1 == k)).isSome
  then m.map (fun e => if e.1 == k then (k, v) else e)
  else m ++ [(k, v)]

/-- JS Map.delete on a string-keyed map. -/
def mapDelete {α : Type} (m : List (List Char × α)) (k : List Char) :
    List (List Char × α) :=
  m.filter (fun e => e.1 != k)

/-- JS Map.get on a number-keyed map. -/
def nmapGet {α : Type} (m : List (Nat × α)) (k : Nat) : Option α :=
  (m.find? (fun e => e.1 == k)).map (fun e => e.2)

/-- JS Map.set on a number-keyed map. -/
def nmapSet {α : Type} (m : List (Nat × α)) (k : Nat) (v : α) : List (Nat × α) :=
  if (m.find? (fun e => e.1 == k)).isSome
  then m.map (fun e => if e.1 == k then (k, v) else e)
  else m ++ [(k, v)]

/-- An egress-side client record (the clientInfo built inside
createTargetConnection's connect callback): id, the TCP socket (a handle),
the connected flag and the dialled target. -/
structure EgressClient where
  id : List Char
  sock : Nat
  connected : Bool
  targetHost : List Char
  targetPort : Nat
deriving Repr, DecidableEq

/-- Egress (tcp-client) observable state. clients is the process-wide clients
Map. dials holds the in-flight createTargetConnection calls that have neither
connected nor failed yet: the socket handle, the clientId, the target, and the
payload captured by the .then continuation of the handlePacket caller.
openedFor logs every socket ever created with the session id it was dialled
for, endedSocks every socket on which end() was called, sockWrites every
socket.write, and wire every buffer handed to serialPort.write. -/
structure EgressState where
  clients : List (List Char × EgressClient)
  dials : List (Nat × List Char × List Char × Nat × List Nat)
  nextSock : Nat
  openedFor : List (Nat × List Char)
  endedSocks : List Nat
  sockWrites : List (Nat × List Nat)
  wire : List (List Nat)
deriving Repr, DecidableEq

/-- handlePacket from tcp-client. CMD_DATA for a known id writes to that
client's socket; for an unknown id it calls createTargetConnection, which
synchronously creates a socket and starts an asynchronous connect - the
clients Map is only updated in the connect callback, and the payload is
written only by the .then continuation, so until the dial resolves the id
stays unknown to this function. CMD_DISCONNECT ends the socket and deletes
the entry. Every other cmd (including CMD_PROGRAM_CLOSE) falls to the default
branch, which only logs: no state changes and no shutdown is started. -/
def handlePacket (p : EmittedPacket) (s : EgressState) : EgressState :=
  if p.cmd = CMD_DATA then
    match mapGet s.clients p.clientId with
    | some client =>
      if client.connected then
        { s with sockWrites := s.sockWrites ++ [(client.sock, p.data)] }
      else s
    | none =>
      { s with
        openedFor := s.openedFor ++ [(s.nextSock, p.clientId)]
        dials := s.dials ++ [(s.nextSock, p.clientId, p.targetHost, p.targetPort, p.data)]
        nextSock := s.nextSock + 1 }
  else if p.cmd = CMD_DISCONNECT then
    match mapGet s.clients p.clientId with
    | some client =>
      { s with endedSocks := s.endedSocks ++ [client.sock]
               clients := mapDelete s.clients p.clientId }
    | none => s
  else s

/-- The egress events the environment can deliver: an incoming frame from the
framer, or the resolution of an in-flight dial (socket connect success, or a
socket error before connect, which rejects the createTargetConnection promise
and lands in the .catch that only logs). -/
inductive EgressEvent where
  | packet (p : EmittedPacket)
  | dialOk (sock : Nat)
  | dialErr (sock : Nat)
deriving Repr, DecidableEq

def egressStep (s : EgressState) (e : EgressEvent) : EgressState :=
  match e with
  | .packet p => handlePacket p s
  | .dialOk sock =>
    match s.dials.find? (fun d => d.1 == sock) with
    | some d =>
      let cid := d.2.1
      let host := d.2.2.1
      let port := d.2.2.2.1
      let pend := d.2.2.2.2
      let client : EgressClient :=
        { id := cid, sock := sock, connected := true,
          targetHost := host, targetPort := port }
      { s with clients := mapSet s.clients cid client
               dials := s.dials.filter (fun d2 => d2.1 != sock)
               sockWrites := s.sockWrites ++ [(sock, pend)] }
    | none => s
  | .dialErr sock =>
    match s.dials.find? (fun d => d.1 == sock) with
    | some _ => { s with dials := s.dials.filter (fun d2 => d2.1 != sock) }
    | none => s

def egressRun (s : EgressState) (es : List EgressEvent) : EgressState :=
  es.foldl egressStep s

def egressInit : EgressState :=
  { clients := [], dials := [], nextSock := 0, openedFor := [],
    endedSocks := [], sockWrites := [], wire := [] }

/-- An ingress-side client record (the clientInfo built in the connection
handler of createMultiPortServers), with the remote target taken from the
port mapping. -/
structure IngressClient where
  id : List Char
  sock : Nat
  remoteHost : List Char
  remotePort : Nat
deriving Repr, DecidableEq

/-- Ingress (tcp-server) observable state: the clientsByPort Map of Maps,
the end() and write() logs, the serial write log, whether the serial port is
open, and whether gracefulShutdown has been scheduled (the setImmediate in
the CMD_PROGRAM_CLOSE case). -/
structure IngressState where
  clientsByPort : List (Nat × List (List Char × IngressClient))
  endedSocks : List Nat
  sockWrites : List (Nat × List Nat)
  wire : List (List Nat)
  serialOpen : Bool
  shutdownRequested : Bool
deriving Repr, DecidableEq

/-- The CMD_DATA lookup in handleResponsePacket: walk the port buckets in
order and return the first client stored under the id. -/
def findClientAcrossPorts (t : List (Nat × List (List Char × IngressClient)))
    (cid : List Char) : Option IngressClient :=
  match t with
  | [] => none
  | (_, m) :: rest =>
    match mapGet m cid with
    | some c => some c
    | none => findClientAcrossPorts rest cid

/-- The membership test clientsByPort.has(clientId) in the CMD_DISCONNECT case
of handleResponsePacket: the Map is keyed by numeric local ports while
clientId is a hex string, and Map.has uses SameValueZero equality, under which
a number never equals a string - the test is constantly false. -/
def portsMapHasStringKey (t : List (Nat × List (List Char × IngressClient)))
    (cid : List Char) : Bool := false

/-- handleResponsePacket from tcp-server. CMD_DATA writes the payload to the
first client found under the id. CMD_DISCONNECT calls end() on the socket of
every bucket entry under the id; the subsequent
clientsByPort.get(clientId).delete(clientId) is guarded by the constantly
false has(clientId) test, so the table is not touched here. CMD_PROGRAM_CLOSE
schedules gracefulShutdown via setImmediate. -/
def handleResponsePacket (p : EmittedPacket) (s : IngressState) : IngressState :=
  if p.cmd = CMD_DATA then
    match findClientAcrossPorts s.clientsByPort p.clientId with
    | some c => { s with sockWrites := s.sockWrites ++ [(c.sock, p.data)] }
    | none => s
  else if p.cmd = CMD_DISCONNECT then
    let ends := s.clientsByPort.filterMap
      (fun pm => (mapGet pm.2 p.clientId).map (fun c => c.sock))
    let s1 := { s with endedSocks := s.endedSocks ++ ends }
    if portsMapHasStringKey s1.clientsByPort p.clientId = true then s1 else s1
  else if p.cmd = CMD_PROGRAM_CLOSE then
    { s with shutdownRequested := true }
  else s

/-- Ingress events: a connection accepted on a listen port (the handler mints
the id and inserts the clientInfo), a frame delivered by the framer, and the
close event of a client socket (whose handler deletes the entry from the
port's bucket and, if the serial port is open, writes a CMD_DISCONNECT frame
built from the closure-captured id and mapping). -/
inductive IngressEvent where
  | accept (port : Nat) (cid : List Char) (sock : Nat)
      (remoteHost : List Char) (remotePort : Nat)
  | recv (p : EmittedPacket)
  | sockClose (port : Nat) (cid : List Char)
      (remoteHost : List Char) (remotePort : Nat)
deriving Repr, DecidableEq

def ingressStep (s : IngressState) (e : IngressEvent) : IngressState :=
  match e with
  | .accept port cid sock host rport =>
    let bucket :=
      match nmapGet s.clientsByPort port with
      | some m => m
      | none => []
    let bucket2 := mapSet bucket cid
      { id := cid, sock := sock, remoteHost := host, remotePort := rport }
    { s with clientsByPort := nmapSet s.clientsByPort port bucket2 }
  | .recv p => handleResponsePacket p s
  | .sockClose port cid host rport =>
    let s1 :=
      match nmapGet s.clientsByPort port with
      | some m =>
        { s with clientsByPort := nmapSet s.clientsByPort port (mapDelete m cid) }
      | none => s
    if s1.serialOpen then
      { s1 with wire := s1.wire ++ [createPacket CMD_DISCONNECT cid [] host rport []] }
    else s1

def ingressRun (s : IngressState) (es : List IngressEvent) : IngressState :=
  es.foldl ingressStep s

def ingressInit : IngressState :=
  { clientsByPort := [], endedSocks := [], sockWrites := [], wire := [],
    serialOpen := true, shutdownRequested := false }

/-- The serial frames submitted by the ingress gracefulShutdown (tcp-server),
in submission order: step 1 writes one CMD_DISCONNECT per client left in the
table; no other step of the ingress sequence writes to the serial port - in
particular no CMD_PROGRAM_CLOSE frame appears anywhere in it. -/
def ingressShutdownWire (s : IngressState) : List (List Nat) :=
  if s.serialOpen then
    (s.clientsByPort.map (fun pm =>
      pm.2.map (fun c =>
        createPacket CMD_DISCONNECT c.1 [] c.2.remoteHost c.2.remotePort []))).flatten
  else []

/-- The serial frames submitted by the egress gracefulShutdown (tcp-client),
in submission order: step 1 writes a single CMD_PROGRAM_CLOSE under a fresh
random id (freshHex is the crypto.randomUUID() hex string), step 2 one
CMD_DISCONNECT per client left in the table. -/
def egressShutdownWire (clients : List (List Char × EgressClient))
    (freshHex : List Char) (freshBytes : List Nat) (serialOpen : Bool) :
    List (List Nat) :=
  if serialOpen then
    createPacket CMD_PROGRAM_CLOSE freshHex [] [] 0 freshBytes ::
      clients.map (fun c =>
        createPacket CMD_DISCONNECT c.1 [] c.2.targetHost c.2.targetPort [])
  else []

/-- The environment of one gracefulShutdown run: which of the bounded waits
expired (the 3 s per-client socket close waits, the ingress-only 5 s server
close waits, the 3 s serial close wait) and whether anything in the try block
threw (the only way the catch handler runs). -/
structure ShutdownEnv where
  clientWaitExpired : List Bool
  serverWaitExpired : List Bool
  serialWaitExpired : Bool
  threw : Bool
deriving Repr, DecidableEq

/-- Outcome of the ingress gracefulShutdown: the number of bounded waits that
expired (each logs a warning and force-destroys its resource, then resolves)
paired with the process exit status - process.exit(0) at the end of the try
block regardless of the expiries, process.exit(1) only in the catch handler. -/
def ingressShutdownOutcome (env : ShutdownEnv) : Nat × Nat :=
  (env.clientWaitExpired.countP (fun b => b) +
     env.serverWaitExpired.countP (fun b => b) +
     (if env.serialWaitExpired then 1 else 0),
   if env.threw then 1 else 0)

/-- Outcome of the egress gracefulShutdown: as for ingress, without the server
close waits. -/
def egressShutdownOutcome (env : ShutdownEnv) : Nat × Nat :=
  (env.clientWaitExpired.countP (fun b => b) +
     (if env.serialWaitExpired then 1 else 0),
   if env.threw then 1 else 0)

/-- A 32-character hex session id, as minted by the ingress accept handler. -/
def exId : List Char := String.toList "aabbccddeeff00112233445566778899"

def exHost : List Char := String.toList "127.0.0.1"

/-- A small well-formed frame for concrete round-trip checks. -/
def frameEx : Frame :=
  { cmd := 1, sessionId := [0, 1, 2, 3, 4, 5, 6, 7, 8, 9, 10, 11, 12, 13, 14, 15],
    targetIp := [127, 0, 0, 1], targetPort := 8080, data := [104, 105] }

/-- A hand-crafted 27-byte frame header announcing a 16 MiB + 1 payload
(data_len bytes 01 00 00 01, value 16777217). -/
def oversizeHeader : List Nat :=
  [1] ++ List.replicate 16 0 ++ [127, 0, 0, 1] ++ [31, 144] ++ [1, 0, 0, 1]

/-- A well-formed frame whose payload exceeds the 16 MiB ceiling the
specification recommends. -/
def bigFrame : Frame :=
  { cmd := 1, sessionId := List.replicate 16 0, targetIp := [127, 0, 0, 1],
    targetPort := 8080, data := List.replicate 16777217 65 }

/-- A CMD_DATA frame for the example session, as emitted by the framer. -/
def dataPacketEx (data : List Nat) : EmittedPacket :=
  { cmd := CMD_DATA, clientId := exId, targetHost := exHost,
    targetPort := 9000, data := data }

/-- Two Data frames for the same unknown id followed by both dial
completions: the second frame arrives while the first dial is in flight. -/
def c2trace : List EgressEvent :=
  [.packet (dataPacketEx [170]), .packet (dataPacketEx [187]), .dialOk 0, .dialOk 1]

/-- One Data frame for an unknown id whose dial fails. -/
def c7trace : List EgressEvent :=
  [.packet (dataPacketEx [1]), .dialErr 0]

/-- A ProgramClose frame as the framer would deliver it. -/
def progClosePacket : EmittedPacket :=
  { cmd := CMD_PROGRAM_CLOSE, clientId := exId, targetHost := String.toList "0.0.0.0",
    targetPort := 0, data := [] }

/-- An accepted ingress session, then a peer Disconnect for it, then the close
event of its socket (the close that the end() call in the Disconnect case
provokes). -/
def c3trace : List IngressEvent :=
  [.accept 8080 exId 0 (String.toList "localhost") 22,
   .recv { cmd := CMD_DISCONNECT, clientId := exId,
           targetHost := String.toList "0.0.0.0", targetPort := 0, data := [] },
   .sockClose 8080 exId (String.toList "localhost") 22]

/-- An ingress state holding one live session, about to shut down. -/
def exIngressOne : IngressState :=
  { clientsByPort :=
      [(8080, [(exId, { id := exId, sock := 0,
                        remoteHost := String.toList "localhost", remotePort := 22 })])],
    endedSocks := [], sockWrites := [], wire := [],
    serialOpen := true, shutdownRequested := false }

/-- A 32-character hyphen-free string of non-hex characters: not a 32-character
hex string, yet long enough to take createPacket's length-32 branch. -/
def zId : List Char := String.toList "zzzzzzzzzzzzzzzzzzzzzzzzzzzzzzzz"

/-- A shutdown run in which one client-socket close wait expired and nothing
threw. -/
def envExpired : ShutdownEnv :=
  { clientWaitExpired := [true], serverWaitExpired := [],
    serialWaitExpired := false, threw := false }

lemma byteAt_append (l c : List Nat) (i : Nat) (h : i < l.length) :
    byteAt (l ++ c) i = byteAt l i := by
  unfold byteAt
  rw [List.getD_append _ _ _ _ h]

lemma readUInt16BE_append (l c : List Nat) (i : Nat) (h : i + 1 < l.length) :
    readUInt16BE (l ++ c) i = readUInt16BE l i := by
  unfold readUInt16BE
  rw [byteAt_append _ _ _ (by omega), byteAt_append _ _ _ (by omega)]

lemma readUInt32BE_append (l c : List Nat) (i : Nat) (h : i + 3 < l.length) :
    readUInt32BE (l ++ c) i = readUInt32BE l i := by
  unfold readUInt32BE
  rw [byteAt_append _ _ _ (by omega), byteAt_append _ _ _ (by omega),
    byteAt_append _ _ _ (by omega), byteAt_append _ _ _ (by omega)]

lemma drop_append_le (l c : List Nat) (i : Nat) (h : i ≤ l.length) :
    (l ++ c).drop i = l.drop i ++ c := by
  rw [List.drop_append_eq_append_drop]
  have h1 : i - l.length = 0 := by omega
  rw [h1]
  simp

lemma slice_append (l c : List Nat) (i n : Nat) (h : i + n ≤ l.length) :
    ((l ++ c).drop i).take n = (l.drop i).take n := by
  rw [List.drop_append_eq_append_drop, List.take_append_eq_append_take]
  have h1 : i - l.length = 0 := by omega
  have h2 : n - (l.drop i).length = 0 := by
    simp only [List.length_drop]
    omega
  rw [h1, h2]
  simp

lemma headerPacket_append (l c : List Nat) (h : 27 ≤ l.length)
    (hd : 27 + readUInt32BE l 23 ≤ l.length) :
    headerPacket (l ++ c) = headerPacket l := by
  unfold headerPacket
  rw [byteAt_append _ _ _ (by omega), readUInt16BE_append _ _ _ (by omega),
    readUInt32BE_append _ _ _ (by omega),
    slice_append _ _ _ _ (by omega), slice_append _ _ _ _ (by omega),
    slice_append _ _ _ _ (by omega)]

lemma extractLoopAux_fuel (f1 : Nat) : ∀ (f2 : Nat) (buf : List Nat),
    buf.length ≤ f1 → buf.length ≤ f2 →
    extractLoopAux f1 buf = extractLoopAux f2 buf := by
  induction f1 with
  | zero =>
    intro f2 buf h1 _
    have hb : buf = [] := List.length_eq_zero.mp (by omega)
    subst hb
    cases f2 with
    | zero => rfl
    | succ f2 => simp [extractLoopAux]
  | succ f1 ih =>
    intro f2 buf h1 h2
    cases f2 with
    | zero =>
      have hb : buf = [] := List.length_eq_zero.mp (by omega)
      subst hb
      simp [extractLoopAux]
    | succ f2 =>
      simp only [extractLoopAux]
      by_cases hl : 27 ≤ buf.length
      · by_cases hlen : 27 + readUInt32BE buf 23 ≤ buf.length
        · have hrest :
              (buf.drop (27 + readUInt32BE buf 23)).length ≤ f1 := by
            simp only [List.length_drop]; omega
          have hrest2 :
              (buf.drop (27 + readUInt32BE buf 23)).length ≤ f2 := by
            simp only [List.length_drop]; omega
          rw [if_pos hl, if_pos hl, if_pos hlen, if_pos hlen,
            ih f2 _ hrest hrest2]
        · rw [if_pos hl, if_pos hl, if_neg hlen, if_neg hlen]
      · rw [if_neg hl, if_neg hl]

lemma extractLoop_incomplete (buf : List Nat)
    (h : buf.length < 27 ∨ buf.length < 27 + readUInt32BE buf 23) :
    extractLoop buf = ([], buf) := by
  unfold extractLoop
  cases buf with
  | nil => simp [extractLoopAux]
  | cons b bs =>
    simp only [List.length_cons, extractLoopAux]
    by_cases hl : 27 ≤ (b :: bs).length
    · rcases h with h | h
      · omega
      · rw [if_pos (by simpa using hl), if_neg (by simpa using (by omega :
          ¬ 27 + readUInt32BE (b :: bs) 23 ≤ (b :: bs).length))]
    · rw [if_neg (by simpa using hl)]

lemma extractLoop_complete (buf : List Nat)
    (h1 : 27 ≤ buf.length) (h2 : 27 + readUInt32BE buf 23 ≤ buf.length) :
    extractLoop buf =
      (headerPacket buf :: (extractLoop (buf.drop (27 + readUInt32BE buf 23))).1,
       (extractLoop (buf.drop (27 + readUInt32BE buf 23))).2) := by
  unfold extractLoop
  cases buf with
  | nil => simp at h1
  | cons b bs =>
    simp only [List.length_cons, extractLoopAux]
    rw [if_pos (by simpa using h1), if_pos (by simpa using h2)]
    have hfuel := extractLoopAux_fuel bs.length
      (((b :: bs).drop (27 + readUInt32BE (b :: bs) 23)).length)
      ((b :: bs).drop (27 + readUInt32BE (b :: bs) 23))
      (by simp only [List.length_drop, List.length_cons]; omega)
      (le_refl _)
    rw [hfuel]

lemma extractLoop_snd_incomplete (buf : List Nat) :
    (extractLoop buf).2.length < 27 ∨
      (extractLoop buf).2.length < 27 + readUInt32BE (extractLoop buf).2 23 := by
  by_cases h1 : 27 ≤ buf.length
  · by_cases h2 : 27 + readUInt32BE buf 23 ≤ buf.length
    · rw [extractLoop_complete _ h1 h2]
      exact extractLoop_snd_incomplete (buf.drop (27 + readUInt32BE buf 23))
    · rw [extractLoop_incomplete _ (Or.inr (by omega))]
      exact Or.inr (show buf.length < 27 + readUInt32BE buf 23 by omega)
  · rw [extractLoop_incomplete _ (Or.inl (by omega))]
    exact Or.inl (show buf.length < 27 by omega)
termination_by buf.length
decreasing_by simp only [List.length_drop]; omega

lemma extractLoop_fix (buf : List Nat) :
    extractLoop ((extractLoop buf).2) = ([], (extractLoop buf).2) :=
  extractLoop_incomplete _ (extractLoop_snd_incomplete buf)

theorem extractLoop_append (buf c : List Nat) :
    extractLoop (buf ++ c) =
      ((extractLoop buf).1 ++ (extractLoop ((extractLoop buf).2 ++ c)).1,
       (extractLoop ((extractLoop buf).2 ++ c)).2) := by
  by_cases h1 : 27 ≤ buf.length
  · by_cases h2 : 27 + readUInt32BE buf 23 ≤ buf.length
    · have hdl : readUInt32BE (buf ++ c) 23 = readUInt32BE buf 23 :=
        readUInt32BE_append _ _ _ (by omega)
      have hc1 : 27 ≤ (buf ++ c).length := by
        simp only [List.length_append]; omega
      have hc2 : 27 + readUInt32BE (buf ++ c) 23 ≤ (buf ++ c).length := by
        rw [hdl]; simp only [List.length_append]; omega
      rw [extractLoop_complete _ hc1 hc2, extractLoop_complete _ h1 h2]
      have hdrop : (buf ++ c).drop (27 + readUInt32BE (buf ++ c) 23)
          = buf.drop (27 + readUInt32BE buf 23) ++ c := by
        rw [hdl, drop_append_le _ _ _ (by omega)]
      have hp : headerPacket (buf ++ c) = headerPacket buf :=
        headerPacket_append _ _ h1 h2
      rw [hdrop, hp, extractLoop_append (buf.drop (27 + readUInt32BE buf 23)) c]
      simp
    · rw [extractLoop_incomplete buf (Or.inr (by omega))]
      simp
  · rw [extractLoop_incomplete buf (Or.inl (by omega))]
    simp
termination_by buf.length
decreasing_by simp only [List.length_drop]; omega

theorem framerRun_eq (css : List (List Nat)) : ∀ (st : List Nat),
    extractLoop st = ([], st) →
    framerRun st css = extractLoop (st ++ css.flatten) := by
  induction css with
  | nil =>
    intro st hst
    simp only [framerRun, List.flatten_nil, List.append_nil, hst]
  | cons c cs ih =>
    intro st hst
    simp only [framerRun, framerStep]
    rw [ih _ (extractLoop_fix (st ++ c))]
    rw [show st ++ (c :: cs).flatten = (st ++ c) ++ cs.flatten by
      simp [List.flatten_cons, List.append_assoc]]
    rw [extractLoop_append (st ++ c) cs.flatten]

lemma writeBytesAt_zeros (A : List Nat) (m off : Nat) (src : List Nat)
    (h1 : A.length ≤ off) (h2 : off + src.length ≤ A.length + m) :
    writeBytesAt (A ++ List.replicate m 0) off src =
      (A ++ List.replicate (off - A.length) 0) ++ src ++
        List.replicate (m - (off - A.length) - src.length) 0 := by
  unfold writeBytesAt
  rw [List.take_append_eq_append_take, List.take_of_length_le h1,
    List.take_replicate, List.drop_append_eq_append_drop,
    List.drop_eq_nil_of_le (by omega), List.drop_replicate,
    List.take_of_length_le (by simp only [List.length_append, List.length_replicate]; omega)]
  have hmin : min (off - A.length) m = off - A.length := by omega
  have hidx : m - (off + src.length - A.length) = m - (off - A.length) - src.length := by
    omega
  rw [hmin, hidx]
  simp [List.append_assoc]

lemma ipBuffer_length_le (targetHost : List Char) : (ipBuffer targetHost).length ≤ 4 := by
  unfold ipBuffer
  split
  · simp
  · simp only [List.length_map, List.length_take]
    omega

lemma writeBytesAt_zeros' (A : List Nat) (m off : Nat) (src : List Nat) (g r : Nat)
    (h1 : A.length ≤ off) (hg : g = off - A.length) (hr : r = m - g - src.length)
    (h2 : off + src.length ≤ A.length + m) :
    writeBytesAt (A ++ List.replicate m 0) off src =
      A ++ List.replicate g 0 ++ src ++ List.replicate r 0 := by
  subst hg hr
  have h := writeBytesAt_zeros A m off src h1 h2
  rw [h]

lemma createPacket_eq (cmd : Nat) (clientId : List Char) (data : List Nat)
    (targetHost : List Char) (targetPort : Nat) (fresh : List Nat)
    (hcib : (clientIdBuffer clientId fresh).length = 16) :
    createPacket cmd clientId data targetHost targetPort fresh =
      [cmd % 256] ++ clientIdBuffer clientId fresh ++
        (ipBuffer targetHost ++ List.replicate (4 - (ipBuffer targetHost).length) 0) ++
        writeUInt16BE targetPort ++ writeUInt32BE data.length ++ data := by
  have hk := ipBuffer_length_le targetHost
  have h16 : (writeUInt16BE targetPort).length = 2 := by simp [writeUInt16BE]
  have h32 : (writeUInt32BE data.length).length = 4 := by simp [writeUInt32BE]
  have e1 : writeBytesAt (List.replicate (1 + 16 + 4 + 2 + 4 + data.length) 0) 0
        [cmd % 256]
      = [cmd % 256] ++ List.replicate (26 + data.length) 0 := by
    have h := writeBytesAt_zeros' [] (1 + 16 + 4 + 2 + 4 + data.length) 0 [cmd % 256]
      0 (26 + data.length) (by simp)
      (by simp)
      (by simp only [List.length_cons, List.length_nil] <;> omega)
      (by simp only [List.length_cons, List.length_nil] <;> omega)
    simpa using h
  have e2 : writeBytesAt ([cmd % 256] ++ List.replicate (26 + data.length) 0) 1
        (clientIdBuffer clientId fresh)
      = ([cmd % 256] ++ clientIdBuffer clientId fresh) ++
          List.replicate (10 + data.length) 0 := by
    have h := writeBytesAt_zeros' [cmd % 256] (26 + data.length) 1
      (clientIdBuffer clientId fresh) 0 (10 + data.length)
      (by simp)
      (by simp)
      (by simp only [hcib] <;> omega)
      (by simp only [List.length_cons, List.length_nil, hcib] <;> omega)
    simpa [List.append_assoc] using h
  have e3 : writeBytesAt (([cmd % 256] ++ clientIdBuffer clientId fresh) ++
        List.replicate (10 + data.length) 0) 17 (ipBuffer targetHost)
      = (([cmd % 256] ++ clientIdBuffer clientId fresh) ++
          (ipBuffer targetHost ++ List.replicate (4 - (ipBuffer targetHost).length) 0)) ++
          List.replicate (6 + data.length) 0 := by
    have h := writeBytesAt_zeros' ([cmd % 256] ++ clientIdBuffer clientId fresh)
      (10 + data.length) 17 (ipBuffer targetHost)
      0 ((4 - (ipBuffer targetHost).length) + (6 + data.length))
      (by simp only [List.length_append, List.length_cons, List.length_nil, hcib] <;> omega)
      (by simp only [List.length_append, List.length_cons, List.length_nil, hcib] <;> omega)
      (by omega)
      (by simp only [List.length_append, List.length_cons, List.length_nil, hcib] <;> omega)
    simpa [List.append_assoc] using h
  have e4 : writeBytesAt ((([cmd % 256] ++ clientIdBuffer clientId fresh) ++
        (ipBuffer targetHost ++ List.replicate (4 - (ipBuffer targetHost).length) 0)) ++
        List.replicate (6 + data.length) 0) 21 (writeUInt16BE targetPort)
      = (((([cmd % 256] ++ clientIdBuffer clientId fresh) ++
          (ipBuffer targetHost ++ List.replicate (4 - (ipBuffer targetHost).length) 0)) ++
          writeUInt16BE targetPort)) ++ List.replicate (4 + data.length) 0 := by
    have h := writeBytesAt_zeros' (([cmd % 256] ++ clientIdBuffer clientId fresh) ++
        (ipBuffer targetHost ++ List.replicate (4 - (ipBuffer targetHost).length) 0))
      (6 + data.length) 21 (writeUInt16BE targetPort) 0 (4 + data.length)
      (by simp only [List.length_append, List.length_cons, List.length_nil, hcib,
        List.length_replicate] <;> omega)
      (by simp only [List.length_append, List.length_cons, List.length_nil, hcib,
        List.length_replicate] <;> omega)
      (by simp only [h16] <;> omega)
      (by simp only [List.length_append, List.length_cons, List.length_nil, hcib,
        List.length_replicate, h16] <;> omega)
    simpa [List.append_assoc] using h
  have e5 : writeBytesAt (((([cmd % 256] ++ clientIdBuffer clientId fresh) ++
        (ipBuffer targetHost ++ List.replicate (4 - (ipBuffer targetHost).length) 0)) ++
        writeUInt16BE targetPort) ++ List.replicate (4 + data.length) 0) 23
        (writeUInt32BE data.length)
      = ((((([cmd % 256] ++ clientIdBuffer clientId fresh) ++
          (ipBuffer targetHost ++ List.replicate (4 - (ipBuffer targetHost).length) 0)) ++
          writeUInt16BE targetPort) ++ writeUInt32BE data.length)) ++
          List.replicate data.length 0 := by
    have h := writeBytesAt_zeros' ((([cmd % 256] ++ clientIdBuffer clientId fresh) ++
        (ipBuffer targetHost ++ List.replicate (4 - (ipBuffer targetHost).length) 0)) ++
        writeUInt16BE targetPort)
      (4 + data.length) 23 (writeUInt32BE data.length) 0 data.length
      (by simp only [List.length_append, List.length_cons, List.length_nil, hcib,
        List.length_replicate, h16] <;> omega)
      (by simp only [List.length_append, List.length_cons, List.length_nil, hcib,
        List.length_replicate, h16] <;> omega)
      (by simp only [h32] <;> omega)
      (by simp only [List.length_append, List.length_cons, List.length_nil, hcib,
        List.length_replicate, h16, h32] <;> omega)
    simpa [List.append_assoc] using h
  have e6 : writeBytesAt ((((([cmd % 256] ++ clientIdBuffer clientId fresh) ++
        (ipBuffer targetHost ++ List.replicate (4 - (ipBuffer targetHost).length) 0)) ++
        writeUInt16BE targetPort) ++ writeUInt32BE data.length) ++
        List.replicate data.length 0) 27 data
      = (((([cmd % 256] ++ clientIdBuffer clientId fresh) ++
          (ipBuffer targetHost ++ List.replicate (4 - (ipBuffer targetHost).length) 0)) ++
          writeUInt16BE targetPort) ++ writeUInt32BE data.length) ++ data := by
    have h := writeBytesAt_zeros' (((([cmd % 256] ++ clientIdBuffer clientId fresh) ++
        (ipBuffer targetHost ++ List.replicate (4 - (ipBuffer targetHost).length) 0)) ++
        writeUInt16BE targetPort) ++ writeUInt32BE data.length)
      data.length 27 data 0 0
      (by simp only [List.length_append, List.length_cons, List.length_nil, hcib,
        List.length_replicate, h16, h32] <;> omega)
      (by simp only [List.length_append, List.length_cons, List.length_nil, hcib,
        List.length_replicate, h16, h32] <;> omega)
      (by omega)
      (by simp only [List.length_append, List.length_cons, List.length_nil, hcib,
        List.length_replicate, h16, h32] <;> omega)
    simpa [List.append_assoc] using h
  simp only [createPacket]
  rw [e1, e2, e3, e4, e5, e6]

lemma hexEncode_length (bs : List Nat) : (hexEncode bs).length = 2 * bs.length := by
  induction bs with
  | nil => simp [hexEncode]
  | cons b bs ih =>
    simp only [hexEncode, List.length_cons, ih]
    omega

lemma hexCharVal_hexDigitChar : ∀ x < 16, hexCharVal (hexDigitChar x) = some x := by
  decide

lemma hexDecode_hexEncode (bs : List Nat) (h : ∀ b ∈ bs, b < 256) :
    hexDecode (hexEncode bs) = bs := by
  induction bs with
  | nil => rfl
  | cons b bs ih =>
    have hb : b < 256 := h b (by simp)
    have h1 : hexCharVal (hexDigitChar (b / 16 % 16)) = some (b / 16 % 16) :=
      hexCharVal_hexDigitChar _ (by omega)
    have h2 : hexCharVal (hexDigitChar (b % 16)) = some (b % 16) :=
      hexCharVal_hexDigitChar _ (by omega)
    have ih2 := ih (fun x hx => h x (by simp [hx]))
    simp only [hexEncode, hexDecode, h1, h2, ih2]
    congr 1
    omega

set_option maxRecDepth 40000 in
lemma byteReprFacts : ∀ b < 256, parseIntOr0 (natRepr b) = b ∧
    ('.' : Char) ∉ natRepr b ∧ natRepr b ≠ [] := by
  decide

lemma splitDots_ne_nil (xs : List Char) : splitDots xs ≠ [] := by
  cases xs with
  | nil => simp [splitDots]
  | cons c cs =>
    simp only [splitDots]
    split
    · simp
    · split <;> simp

lemma splitDots_no_dot (xs : List Char) (h : ('.' : Char) ∉ xs) :
    splitDots xs = [xs] := by
  induction xs with
  | nil => rfl
  | cons c cs ih =>
    have hc : ¬ c = '.' := by
      intro e
      exact h (by simp [e])
    have ih2 := ih (fun hm => h (by simp [hm]))
    simp [splitDots, ih2, hc]

lemma splitDots_append (xs rest : List Char) (h : ('.' : Char) ∉ xs) :
    splitDots (xs ++ '.' :: rest) = xs :: splitDots rest := by
  induction xs with
  | nil =>
    simp only [List.nil_append, splitDots]
    cases hr : splitDots rest with
    | nil => exact absurd hr (splitDots_ne_nil rest)
    | cons p ps => simp
  | cons c cs ih =>
    have hc : ¬ c = '.' := by
      intro e
      exact h (by simp [e])
    have ih2 := ih (fun hm => h (by simp [hm]))
    simp [List.cons_append, splitDots, ih2, hc]

lemma list_len4 {α : Type} (l : List α) (h : l.length = 4) :
    ∃ a b c d, l = [a, b, c, d] := by
  match l, h with
  | [a, b, c, d], _ => exact ⟨a, b, c, d, rfl⟩

lemma joinDots_four (pa pb pc pd : List Char) :
    joinDots [pa, pb, pc, pd] = pa ++ '.' :: (pb ++ '.' :: (pc ++ '.' :: pd)) := by
  simp [joinDots]

lemma ipBuffer_roundtrip (a b c d : Nat)
    (ha : a < 256) (hb : b < 256) (hc : c < 256) (hd : d < 256) :
    ipBuffer (joinDots ([a, b, c, d].map natRepr)) = [a, b, c, d] := by
  obtain ⟨pa, na, ea⟩ := byteReprFacts a ha
  obtain ⟨pb, nb, eb⟩ := byteReprFacts b hb
  obtain ⟨pc, nc, ec⟩ := byteReprFacts c hc
  obtain ⟨pd, nd, ed⟩ := byteReprFacts d hd
  have hj : joinDots ([a, b, c, d].map natRepr)
      = natRepr a ++ '.' :: (natRepr b ++ '.' :: (natRepr c ++ '.' :: natRepr d)) := by
    simp [joinDots]
  rw [hj]
  unfold ipBuffer
  rw [if_neg (by simp [ea])]
  rw [splitDots_append _ _ na, splitDots_append _ _ nb, splitDots_append _ _ nc,
    splitDots_no_dot _ nd]
  simp [pa, pb, pc, pd]
  omega

lemma Frame.encode_eq (f : Frame) (h : f.wf) :
    f.encode = [f.cmd] ++ f.sessionId ++ f.targetIp ++ writeUInt16BE f.targetPort ++
      writeUInt32BE f.data.length ++ f.data := by
  obtain ⟨hcmd, hsl, hsb, hil, hib, hport, hdl, hdb⟩ := h
  have hcb : clientIdBuffer (hexEncode f.sessionId) [] = f.sessionId := by
    unfold clientIdBuffer
    rw [if_pos (by rw [hexEncode_length, hsl])]
    exact hexDecode_hexEncode _ hsb
  have hip : ipBuffer f.hostStr = f.targetIp := by
    obtain ⟨a, b, c, d, he⟩ := list_len4 f.targetIp hil
    have h4 : ∀ x ∈ f.targetIp, x < 256 := hib
    rw [he] at h4
    unfold Frame.hostStr
    rw [he]
    exact ipBuffer_roundtrip a b c d (h4 a (by simp)) (h4 b (by simp))
      (h4 c (by simp)) (h4 d (by simp))
  unfold Frame.encode
  rw [createPacket_eq _ _ _ _ _ _ (by rw [hcb, hsl])]
  rw [hcb, hip]
  have hip4 : f.targetIp.length = 4 := hil
  rw [hip4]
  simp [Nat.mod_eq_of_lt hcmd, List.append_assoc]

lemma byteAt_append_right (l m : List Nat) (i : Nat) :
    byteAt (l ++ m) (l.length + i) = byteAt m i := by
  unfold byteAt
  rw [List.getD_append_right _ _ _ _ (by omega)]
  congr 1
  omega

lemma readUInt16BE_after (pre post : List Nat) (n : Nat) (hpre : pre.length = n) :
    readUInt16BE (pre ++ post) n = readUInt16BE post 0 := by
  subst hpre
  unfold readUInt16BE
  have h0 := byteAt_append_right pre post 0
  rw [Nat.add_zero] at h0
  rw [h0, byteAt_append_right pre post 1]

lemma readUInt32BE_after (pre post : List Nat) (n : Nat) (hpre : pre.length = n) :
    readUInt32BE (pre ++ post) n = readUInt32BE post 0 := by
  subst hpre
  unfold readUInt32BE
  have h0 := byteAt_append_right pre post 0
  rw [Nat.add_zero] at h0
  rw [h0, byteAt_append_right pre post 1, byteAt_append_right pre post 2,
    byteAt_append_right pre post 3]

lemma Frame.encode_length (f : Frame) (h : f.wf) :
    f.encode.length = 27 + f.data.length := by
  rw [Frame.encode_eq f h]
  simp only [List.length_append, List.length_cons, List.length_nil, h.2.1, h.2.2.2.1,
    writeUInt16BE, writeUInt32BE]

lemma extract_encode_cons (f : Frame) (h : f.wf) (tail : List Nat) :
    extractLoop (f.encode ++ tail) =
      (f.emitted :: (extractLoop tail).1, (extractLoop tail).2) := by
  have hE := Frame.encode_eq f h
  have hlenE := Frame.encode_length f h
  obtain ⟨hcmd, hsl, hsb, hil, hib, hport, hdl, hdb⟩ := h
  have F1 : byteAt (f.encode ++ tail) 0 = f.cmd := by
    have hb0 : f.encode ++ tail
        = [f.cmd] ++ (f.sessionId ++ (f.targetIp ++ (writeUInt16BE f.targetPort ++
            (writeUInt32BE f.data.length ++ (f.data ++ tail))))) := by
      rw [hE]; simp [List.append_assoc]
    rw [hb0]
    simp [byteAt]
  have F2 : ((f.encode ++ tail).drop 1).take 16 = f.sessionId := by
    have hb1 : f.encode ++ tail
        = [f.cmd] ++ (f.sessionId ++ (f.targetIp ++ (writeUInt16BE f.targetPort ++
            (writeUInt32BE f.data.length ++ (f.data ++ tail))))) := by
      rw [hE]; simp [List.append_assoc]
    rw [hb1, List.drop_left' (by simp : ([f.cmd] : List Nat).length = 1)]
    exact List.take_left' hsl
  have F3 : ((f.encode ++ tail).drop 17).take 4 = f.targetIp := by
    have hb17 : f.encode ++ tail
        = ([f.cmd] ++ f.sessionId) ++ (f.targetIp ++ (writeUInt16BE f.targetPort ++
            (writeUInt32BE f.data.length ++ (f.data ++ tail)))) := by
      rw [hE]; simp [List.append_assoc]
    rw [hb17, List.drop_left' (by simp [hsl])]
    exact List.take_left' hil
  have F4 : readUInt16BE (f.encode ++ tail) 21 = f.targetPort := by
    have hb21 : f.encode ++ tail
        = (([f.cmd] ++ f.sessionId) ++ f.targetIp) ++ (writeUInt16BE f.targetPort ++
            (writeUInt32BE f.data.length ++ (f.data ++ tail))) := by
      rw [hE]; simp [List.append_assoc]
    rw [hb21, readUInt16BE_after _ _ 21 (by simp [hsl, hil])]
    unfold readUInt16BE writeUInt16BE byteAt
    simp only [List.cons_append, List.nil_append, List.getD_cons_zero, List.getD_cons_succ]
    omega
  have F5 : readUInt32BE (f.encode ++ tail) 23 = f.data.length := by
    have hb23 : f.encode ++ tail
        = ((([f.cmd] ++ f.sessionId) ++ f.targetIp) ++ writeUInt16BE f.targetPort) ++
            (writeUInt32BE f.data.length ++ (f.data ++ tail)) := by
      rw [hE]; simp [List.append_assoc]
    rw [hb23, readUInt32BE_after _ _ 23 (by simp [hsl, hil, writeUInt16BE])]
    unfold readUInt32BE writeUInt32BE byteAt
    simp only [List.cons_append, List.nil_append, List.getD_cons_zero, List.getD_cons_succ]
    omega
  have F6 : ((f.encode ++ tail).drop 27).take f.data.length = f.data := by
    have hb27 : f.encode ++ tail
        = (((([f.cmd] ++ f.sessionId) ++ f.targetIp) ++ writeUInt16BE f.targetPort) ++
            writeUInt32BE f.data.length) ++ (f.data ++ tail) := by
      rw [hE]; simp [List.append_assoc]
    rw [hb27, List.drop_left' (by simp [hsl, hil, writeUInt16BE, writeUInt32BE])]
    exact List.take_left' rfl
  have F7 : (f.encode ++ tail).drop (27 + f.data.length) = tail := by
    rw [List.drop_append_eq_append_drop, List.drop_eq_nil_of_le (by omega),
      show 27 + f.data.length - f.encode.length = 0 by omega]
    simp
  have hlen : 27 ≤ (f.encode ++ tail).length := by
    simp only [List.length_append, hlenE]
    omega
  have hlen2 : 27 + readUInt32BE (f.encode ++ tail) 23 ≤ (f.encode ++ tail).length := by
    rw [F5]
    simp only [List.length_append, hlenE]
    omega
  have hhp : headerPacket (f.encode ++ tail) = f.emitted := by
    unfold headerPacket Frame.emitted
    rw [F1, F2, F3, F4, F5, F6]
    rfl
  rw [extractLoop_complete _ hlen hlen2, F5, F7, hhp]

lemma extract_frames : ∀ (fs : List Frame) (rest : List Nat), (∀ f ∈ fs, f.wf) →
    isIncomplete rest →
    extractLoop ((fs.map Frame.encode).flatten ++ rest) = (fs.map Frame.emitted, rest) := by
  intro fs
  induction fs with
  | nil =>
    intro rest _ hrest
    simpa using extractLoop_incomplete rest hrest
  | cons f fs ih =>
    intro rest hwf hrest
    simp only [List.map_cons, List.flatten_cons, List.append_assoc]
    rw [extract_encode_cons f (hwf f (by simp)) _,
      ih rest (fun g hg => hwf g (by simp [hg])) hrest]

/-- C1. Framing round-trip: for any sequence of well-formed frames with payload
lengths at most the 16 MiB ceiling, encoding each with createPacket,
concatenating, and feeding the bytes to the framer in any chunking whatsoever
(one byte at a time, one giant chunk, or anything between - any chunk sequence
whose concatenation is the encoded stream plus a trailing partial frame) emits
exactly those frames in order, with the same cmd, session id, target ip,
target port and payload, and retains at the end only the bytes of the trailing
partial frame. -/
theorem claim_C1_framing_roundtrip (fs : List Frame) (css : List (List Nat))
    (rest : List Nat)
    (hwf : ∀ f ∈ fs, f.wf)
    (hceil : ∀ f ∈ fs, f.data.length ≤ 16777216)
    (hrest : isIncomplete rest)
    (hjoin : css.flatten = (fs.map Frame.encode).flatten ++ rest) :
    framerRun [] css = (fs.map Frame.emitted, rest) := by
  have h0 : extractLoop ([] : List Nat) = ([], []) := rfl
  rw [framerRun_eq css [] h0, List.nil_append, hjoin]
  exact extract_frames fs rest hwf hrest

theorem claim_C1_framing_roundtrip_witness :
    (∀ f ∈ [frameEx], f.wf) ∧ (∀ f ∈ [frameEx], f.data.length ≤ 16777216) ∧
    isIncomplete [] ∧
    ((Frame.encode frameEx).map (fun b => [b])).flatten
      = ([frameEx].map Frame.encode).flatten ++ [] ∧
    framerRun [] ((Frame.encode frameEx).map (fun b => [b]))
      = ([frameEx].map Frame.emitted, []) := by
  have h1 : ∀ f ∈ [frameEx], f.wf := by decide
  have h2 : ∀ f ∈ [frameEx], f.data.length ≤ 16777216 := by decide
  have h3 : isIncomplete [] := by decide
  have h4 : ((Frame.encode frameEx).map (fun b => [b])).flatten
      = ([frameEx].map Frame.encode).flatten ++ [] := by decide
  exact ⟨h1, h2, h3, h4,
    claim_C1_framing_roundtrip [frameEx] ((Frame.encode frameEx).map (fun b => [b]))
      [] h1 h2 h3 h4⟩

/-- C4. The framer has no data_len ceiling: a header announcing a 16 MiB + 1
payload is not a framing error - the framer keeps the bytes and waits for the
rest of the frame (first conjunct), and once the full frame arrives it is
delivered like any other (second conjunct). No branch of
PacketStream._transform tears sessions down or exits the process. -/
theorem claim_C4_no_ceiling :
    extractLoop oversizeHeader = ([], oversizeHeader) ∧
    extractLoop (Frame.encode bigFrame) = ([Frame.emitted bigFrame], []) := by
  refine ⟨by decide, ?_⟩
  have hwf : bigFrame.wf := by
    unfold Frame.wf bigFrame
    refine ⟨by norm_num, by rw [List.length_replicate], fun b hb => ?_,
      by norm_num, fun b hb => ?_, by norm_num,
      by rw [List.length_replicate]; norm_num, fun b hb => ?_⟩
    · have hb0 := List.eq_of_mem_replicate hb
      omega
    · simp only [List.mem_cons, List.not_mem_nil, or_false] at hb
      rcases hb with rfl | rfl | rfl | rfl <;> norm_num
    · have hb0 := List.eq_of_mem_replicate hb
      omega
  have h := extract_encode_cons bigFrame hwf []
  rw [List.append_nil] at h
  rw [h]
  rfl

lemma writeBytesAt_length (buf : List Nat) (off : Nat) (src : List Nat)
    (h : off ≤ buf.length) :
    (writeBytesAt buf off src).length = buf.length := by
  unfold writeBytesAt
  simp only [List.length_append, List.length_take, List.length_drop]
  omega

lemma byteAt_writeBytesAt_zero (buf : List Nat) (off : Nat) (src : List Nat)
    (h1 : 1 ≤ off) :
    byteAt (writeBytesAt buf off src) 0 = byteAt buf 0 := by
  unfold writeBytesAt byteAt
  cases buf with
  | nil => simp
  | cons b bs =>
    cases off with
    | zero => omega
    | succ o =>
      simp only [List.take_succ_cons, List.cons_append, List.getD_cons_zero]

lemma byteAt_writeBytesAt_start (buf : List Nat) (v : Nat) (h : 1 ≤ buf.length) :
    byteAt (writeBytesAt buf 0 [v]) 0 = v := by
  unfold writeBytesAt byteAt
  cases buf with
  | nil => simp at h
  | cons b bs => simp

lemma createPacket_byteAt0 (cmd : Nat) (clientId : List Char) (data : List Nat)
    (targetHost : List Char) (targetPort : Nat) (fresh : List Nat) :
    byteAt (createPacket cmd clientId data targetHost targetPort fresh) 0 = cmd % 256 := by
  simp only [createPacket]
  rw [byteAt_writeBytesAt_zero _ 27 _ (by omega),
    byteAt_writeBytesAt_zero _ 23 _ (by omega),
    byteAt_writeBytesAt_zero _ 21 _ (by omega),
    byteAt_writeBytesAt_zero _ 17 _ (by omega),
    byteAt_writeBytesAt_zero _ 1 _ (by omega)]
  exact byteAt_writeBytesAt_start _ _ (by simp only [List.length_replicate]; omega)

/-- C2 failing run. Two Data frames for the same unknown session id arrive
before the first dial resolves: handlePacket finds the id absent both times,
so createTargetConnection runs twice, opening two sockets (handles 0 and 1)
for one session id - both still live at the end (no end() was ever called) -
and the two payloads are written to different sockets. No queue of pending
payloads exists anywhere in the state. -/
theorem claim_C2_dial_race :
    (egressRun egressInit c2trace).openedFor = [(0, exId), (1, exId)] ∧
    (egressRun egressInit c2trace).endedSocks = [] ∧
    (egressRun egressInit c2trace).sockWrites = [(0, [170]), (1, [187])] := by
  decide

/-- C3 failing run. A live ingress session receives a peer Disconnect:
handleResponsePacket calls end() on the socket (handle 0) but cannot remove
the table entry (the has(clientId) guard is constantly false); when the close
event of that socket then fires, its handler emits a Disconnect frame back on
the wire - the echo the claim forbids. -/
theorem claim_C3_disconnect_echo :
    (ingressRun ingressInit c3trace).wire
      = [createPacket CMD_DISCONNECT exId [] (String.toList "localhost") 22 []] ∧
    (ingressRun ingressInit c3trace).endedSocks = [0] := by
  decide

/-- C5 counterexample. Delivering a ProgramClose frame to the egress
handlePacket leaves the whole egress state unchanged: it falls into the
default branch, which only logs an unknown command - no shutdown sequence
begins, refuting the claim that both sides react to ProgramClose alike. -/
theorem claim_C5_counterexample :
    egressRun egressInit [EgressEvent.packet progClosePacket] = egressInit := by
  decide

/-- C5 as amended. Receiving a ProgramClose frame causes the ingress side to
schedule gracefulShutdown; the egress side treats it as an unknown command,
logs it, and changes nothing. -/
theorem claim_C5_amended (p : EmittedPacket) (se : EgressState) (si : IngressState)
    (hp : p.cmd = CMD_PROGRAM_CLOSE) :
    handlePacket p se = se ∧ (handleResponsePacket p si).shutdownRequested = true := by
  unfold handlePacket handleResponsePacket
  rw [hp]
  simp [CMD_PROGRAM_CLOSE, CMD_DATA, CMD_DISCONNECT]

theorem claim_C5_amended_witness :
    handlePacket progClosePacket egressInit = egressInit ∧
    (handleResponsePacket progClosePacket ingressInit).shutdownRequested = true :=
  claim_C5_amended progClosePacket egressInit ingressInit rfl

/-- C6 counterexample. A locally initiated ingress shutdown with one live
session submits exactly one frame to the serial port, and no frame of the
sequence is a ProgramClose: the ingress gracefulShutdown emits Disconnects
only, refuting the claim for the ingress side. -/
theorem claim_C6_counterexample :
    (ingressShutdownWire exIngressOne).countP
      (fun pkt => byteAt pkt 0 == CMD_PROGRAM_CLOSE) = 0 ∧
    (ingressShutdownWire exIngressOne).length = 1 := by
  decide

/-- C6 as amended. A locally initiated egress shutdown submits exactly one
ProgramClose, and it precedes every Disconnect of the remaining sessions (the
command bytes of the submitted frames are ProgramClose followed by one
Disconnect per session); a locally initiated ingress shutdown submits no
ProgramClose at all. -/
theorem claim_C6_amended (clients : List (List Char × EgressClient))
    (freshHex : List Char) (freshBytes : List Nat) (s : IngressState) :
    (egressShutdownWire clients freshHex freshBytes true).map (fun pkt => byteAt pkt 0)
      = CMD_PROGRAM_CLOSE :: clients.map (fun _ => CMD_DISCONNECT) ∧
    (ingressShutdownWire s).countP (fun pkt => byteAt pkt 0 == CMD_PROGRAM_CLOSE) = 0 := by
  constructor
  · unfold egressShutdownWire
    rw [if_pos rfl]
    simp [Function.comp_def, createPacket_byteAt0, CMD_PROGRAM_CLOSE, CMD_DISCONNECT]
  · unfold ingressShutdownWire
    split
    · rw [List.countP_eq_zero]
      intro pkt hpkt
      simp only [List.mem_flatten, List.mem_map] at hpkt
      obtain ⟨sub, ⟨pm, hpm, hsub⟩, hin⟩ := hpkt
      subst hsub
      simp only [List.mem_map] at hin
      obtain ⟨c, hc, hpkt2⟩ := hin
      subst hpkt2
      simp [createPacket_byteAt0, CMD_DISCONNECT, CMD_PROGRAM_CLOSE]
    · simp

/-- C7 failing run. A Data frame for an unknown id starts a dial which fails:
the promise rejection lands in the .catch that only logs, the captured payload
is dropped with it, and nothing is ever written to the serial port - in
particular no Disconnect frame, so the ingress-side client is never told. -/
theorem claim_C7_dial_failure_silent :
    (egressRun egressInit c7trace).wire = [] ∧
    (egressRun egressInit c7trace).sockWrites = [] ∧
    (egressRun egressInit c7trace).dials = [] ∧
    (egressRun egressInit c7trace).clients = [] := by
  decide

/-- C8 counterexample. A shutdown run in which one bounded client-close wait
expired (one warning logged, the socket force-destroyed) and nothing threw
still exits with status 0, refuting the claim that any expired bounded wait
yields exit status 1. -/
theorem claim_C8_counterexample :
    (ingressShutdownOutcome envExpired).1 = 1 ∧
    (ingressShutdownOutcome envExpired).2 = 0 := by
  decide

/-- C8 as amended. On both sides, the graceful shutdown sequence exits with
status 0 whenever its try block runs to completion, regardless of how many
bounded waits expired (expired waits only log warnings and force-destroy
their resources); status 1 is produced only when the sequence itself throws. -/
theorem claim_C8_amended (env : ShutdownEnv) (h : env.threw = false) :
    (ingressShutdownOutcome env).2 = 0 ∧ (egressShutdownOutcome env).2 = 0 := by
  simp [ingressShutdownOutcome, egressShutdownOutcome, h]

theorem claim_C8_amended_witness :
    envExpired.threw = false ∧
    (ingressShutdownOutcome envExpired).2 = 0 ∧
    (egressShutdownOutcome envExpired).2 = 0 :=
  ⟨rfl, claim_C8_amended envExpired rfl⟩

lemma parseIntOr0_nil_byte : ((parseIntOr0 ([] : List Char)) % 256).toNat = 0 := by
  decide

lemma ipBuffer_pad (targetHost : List Char) :
    ipBuffer targetHost ++ List.replicate (4 - (ipBuffer targetHost).length) 0
      = (List.range 4).map (fun i =>
          ((parseIntOr0 ((splitDots targetHost).getD i [])) % 256).toNat) := by
  unfold ipBuffer
  split
  · rename_i he
    subst he
    decide
  · rcases hs : splitDots targetHost with _ | ⟨p1, _ | ⟨p2, _ | ⟨p3, _ | ⟨p4, rest⟩⟩⟩⟩ <;>
      simp [show List.range 4 = [0, 1, 2, 3] from rfl, parseIntOr0_nil_byte]

/-- C9. Non-IPv4 host encoding: for every targetHost string, the target_ip
field createPacket emits holds the first four dot-separated parts of the host
as parseInt(part) || 0 truncated to a byte - so octets that fail to parse
(such as every part of the hostname localhost used by the built-in fallback
mapping) and octets that are missing entirely are encoded as zero bytes - and
the peer's framer decodes the host as the dotted join of exactly those octets:
0.0.0.0 for a fully unparseable host, a partly-zeroed address otherwise. -/
theorem claim_C9_zero_ip (cmd : Nat) (clientId : List Char) (data : List Nat)
    (targetHost : List Char) (targetPort : Nat) (fresh : List Nat)
    (hcib : (clientIdBuffer clientId fresh).length = 16) :
    ((createPacket cmd clientId data targetHost targetPort fresh).drop 17).take 4
      = (List.range 4).map (fun i =>
          ((parseIntOr0 ((splitDots targetHost).getD i [])) % 256).toNat) ∧
    (headerPacket (createPacket cmd clientId data targetHost targetPort fresh)).targetHost
      = joinDots (((List.range 4).map (fun i =>
          ((parseIntOr0 ((splitDots targetHost).getD i [])) % 256).toNat)).map natRepr) := by
  have hslice : ((createPacket cmd clientId data targetHost targetPort fresh).drop 17).take 4
      = (List.range 4).map (fun i =>
          ((parseIntOr0 ((splitDots targetHost).getD i [])) % 256).toNat) := by
    rw [createPacket_eq _ _ _ _ _ _ hcib]
    have hre : [cmd % 256] ++ clientIdBuffer clientId fresh ++
        (ipBuffer targetHost ++ List.replicate (4 - (ipBuffer targetHost).length) 0) ++
        writeUInt16BE targetPort ++ writeUInt32BE data.length ++ data
        = ([cmd % 256] ++ clientIdBuffer clientId fresh) ++
          ((ipBuffer targetHost ++ List.replicate (4 - (ipBuffer targetHost).length) 0) ++
            (writeUInt16BE targetPort ++ (writeUInt32BE data.length ++ data))) := by
      simp [List.append_assoc]
    rw [hre, List.drop_left' (by simp [hcib]),
      List.take_left' (by
        have hk := ipBuffer_length_le targetHost
        simp only [List.length_append, List.length_replicate]
        omega)]
    exact ipBuffer_pad targetHost
  refine ⟨hslice, ?_⟩
  simp only [headerPacket]
  rw [hslice]

theorem claim_C9_zero_ip_witness :
    (clientIdBuffer exId []).length = 16 ∧
    ((createPacket 1 exId [104] (String.toList "localhost") 22 []).drop 17).take 4
      = [0, 0, 0, 0] ∧
    (headerPacket (createPacket 1 exId [104] (String.toList "localhost") 22 [])).targetHost
      = String.toList "0.0.0.0" ∧
    ((createPacket 1 exId [104] (String.toList "192.168.1") 22 []).drop 17).take 4
      = [192, 168, 1, 0] ∧
    (headerPacket (createPacket 1 exId [104] (String.toList "192.168.1") 22 [])).targetHost
      = String.toList "192.168.1.0" := by
  have hcib : (clientIdBuffer exId []).length = 16 := by decide
  have h1 := claim_C9_zero_ip 1 exId [104] (String.toList "localhost") 22 [] hcib
  have h2 := claim_C9_zero_ip 1 exId [104] (String.toList "192.168.1") 22 [] hcib
  refine ⟨hcib, ?_, ?_, ?_, ?_⟩
  · rw [h1.1]
    decide
  · rw [h1.2]
    decide
  · rw [h2.1]
    decide
  · rw [h2.2]
    decide

/-- C10 counterexample. A 32-character hyphen-free string of non-hex
characters meets the claim's condition (it is not a 32-character hex string
and contains no hyphen), yet createPacket does not draw a fresh random id for
it: the length-32 branch hex-decodes it, Buffer.from truncates at the first
invalid pair (here to the empty buffer), and the frame goes out under the
zero-padded truncated id - neither an encoding of the caller's id nor the
fresh random one. -/
theorem claim_C10_counterexample :
    zId.length = 32 ∧ ('-' : Char) ∉ zId ∧
    clientIdBuffer zId [0, 1, 2, 3, 4, 5, 6, 7, 8, 9, 10, 11, 12, 13, 14, 15] = [] ∧
    ((createPacket 1 zId [104] exHost 9000
        [0, 1, 2, 3, 4, 5, 6, 7, 8, 9, 10, 11, 12, 13, 14, 15]).drop 1).take 16
      = List.replicate 16 0 ∧
    List.replicate 16 0 ≠ ([0, 1, 2, 3, 4, 5, 6, 7, 8, 9, 10, 11, 12, 13, 14, 15] : List Nat) := by
  decide

/-- C10 as amended. Silent session-id substitution: for a clientId string that
is neither exactly 32 characters long nor contains a hyphen, createPacket
neither fails nor rejects - it uses the freshly drawn random 128-bit id
instead, and the frame on the wire carries that fresh id in its session-id
field, not an encoding of the id the caller asked for. -/
theorem claim_C10_fresh_id (cmd : Nat) (clientId : List Char) (data : List Nat)
    (targetHost : List Char) (targetPort : Nat) (fresh : List Nat)
    (hlen : clientId.length ≠ 32) (hhy : ('-' : Char) ∉ clientId)
    (hfresh : fresh.length = 16) :
    clientIdBuffer clientId fresh = fresh ∧
    ((createPacket cmd clientId data targetHost targetPort fresh).drop 1).take 16
      = fresh := by
  have hcb : clientIdBuffer clientId fresh = fresh := by
    unfold clientIdBuffer
    rw [if_neg hlen, if_neg hhy]
  refine ⟨hcb, ?_⟩
  rw [createPacket_eq _ _ _ _ _ _ (by rw [hcb, hfresh]), hcb]
  have hre : [cmd % 256] ++ fresh ++
      (ipBuffer targetHost ++ List.replicate (4 - (ipBuffer targetHost).length) 0) ++
      writeUInt16BE targetPort ++ writeUInt32BE data.length ++ data
      = [cmd % 256] ++ (fresh ++
        ((ipBuffer targetHost ++ List.replicate (4 - (ipBuffer targetHost).length) 0) ++
          (writeUInt16BE targetPort ++ (writeUInt32BE data.length ++ data)))) := by
    simp [List.append_assoc]
  rw [hre, List.drop_left' (by simp : ([cmd % 256] : List Nat).length = 1)]
  exact List.take_left' hfresh

theorem claim_C10_fresh_id_witness :
    (String.toList "abc").length ≠ 32 ∧
    ('-' : Char) ∉ String.toList "abc" ∧
    ([0, 1, 2, 3, 4, 5, 6, 7, 8, 9, 10, 11, 12, 13, 14, 15] : List Nat).length = 16 ∧
    clientIdBuffer (String.toList "abc") [0, 1, 2, 3, 4, 5, 6, 7, 8, 9, 10, 11, 12, 13, 14, 15]
      = [0, 1, 2, 3, 4, 5, 6, 7, 8, 9, 10, 11, 12, 13, 14, 15] ∧
    ((createPacket 1 (String.toList "abc") [104] exHost 9000
        [0, 1, 2, 3, 4, 5, 6, 7, 8, 9, 10, 11, 12, 13, 14, 15]).drop 1).take 16
      = [0, 1, 2, 3, 4, 5, 6, 7, 8, 9, 10, 11, 12, 13, 14, 15] := by
  have h1 : (String.toList "abc").length ≠ 32 := by decide
  have h2 : ('-' : Char) ∉ String.toList "abc" := by decide
  have h3 : ([0, 1, 2, 3, 4, 5, 6, 7, 8, 9, 10, 11, 12, 13, 14, 15] : List Nat).length = 16 := by
    decide
  have h := claim_C10_fresh_id 1 (String.toList "abc") [104] exHost 9000
    [0, 1, 2, 3, 4, 5, 6, 7, 8, 9, 10, 11, 12, 13, 14, 15] h1 h2 h3
  exact ⟨h1, h2, h3, h.1, h.2⟩
